import Mathlib

/-!
Verification development for the URL-archiving service
(`internal/services/archive_service` and `internal/infra/inmem`).

The Go code is shallowly embedded: the in-memory task store becomes an
association list with explicit state passing, timestamps become `Int`
(Go `time.Time` differences compared against a `time.Duration` TTL),
and the effectful collaborators of the service (HTTP client, filesystem
writes, ZIP assembly) become an explicit environment of functions so
that each service operation is a pure function from inputs and store
state to a result and a new store state.  Context cancellation is a
boolean flag checked at the start of every operation, as in the source.
-/

/-! ## Data model (`models` package) -/

inductive ArchiveStatus where
  | empty
  | building
  | ready
  | failed
deriving DecidableEq, Repr

structure Archive where
  id : String
  status : ArchiveStatus
  files : List String
  createdAt : Int
  updatedAt : Int
  errors : List String
deriving DecidableEq, Repr

/-! ## In-memory store (`internal/infra/inmem`)

The Go `map[string]*models.Archive` is embedded as an association list;
`sync.RWMutex` acquisition is recorded by the `lockModeOf` table below. -/

inductive StoreErr where
  | notFound
  | idEmpty
  | ctxDone
deriving DecidableEq, Repr

structure Store where
  ttl : Int
  db : List (String × Archive)
deriving DecidableEq, Repr

def dbGet (id : String) : List (String × Archive) → Option Archive
  | [] => none
  | e :: rest => if e.1 = id then some e.2 else dbGet id rest

def dbSave (id : String) (a : Archive) : List (String × Archive) → List (String × Archive)
  | [] => [(id, a)]
  | e :: rest => if e.1 = id then (id, a) :: rest else e :: dbSave id a rest

/-- `archive.Status == Building || archive.Status == Empty` in
`CountArchivesInProcess`. -/
def isInProgress : ArchiveStatus → Bool
  | .empty => true
  | .building => true
  | .ready => false
  | .failed => false

/-- `now.Sub(archive.UpdatedAt) > db.ttl` in `CountArchivesInProcess`. -/
def isStale (now ttl : Int) (a : Archive) : Bool :=
  decide (ttl < now - a.updatedAt)

/-- The loop body of `CountArchivesInProcess`: in-progress entries older
than the TTL are deleted and not counted; fresh in-progress entries are
counted; terminal entries are left alone. -/
def countArchivesLoop (now ttl : Int) : List (String × Archive) → Nat × List (String × Archive)
  | [] => (0, [])
  | e :: rest =>
    let r := countArchivesLoop now ttl rest
    if isInProgress e.2.status then
      if isStale now ttl e.2 then r
      else (r.1 + 1, e :: r.2)
    else (r.1, e :: r.2)

/-- `inmemDB.CountArchivesInProcess`. -/
def countArchivesInProcess (ctxDone : Bool) (now : Int) (st : Store) :
    Except StoreErr Nat × Store :=
  cond ctxDone ((.error .ctxDone, st))
    ((.ok (countArchivesLoop now st.ttl st.db).1,
      { st with db := (countArchivesLoop now st.ttl st.db).2 }))

/-- `inmemDB.SaveArchive` (the `nil`-archive check has no counterpart for a
Lean value; the empty-id check is kept). -/
def saveArchive (ctxDone : Bool) (a : Archive) (st : Store) : Except StoreErr Unit × Store :=
  cond ctxDone ((.error .ctxDone, st))
    (if a.id = "" then (.error .idEmpty, st)
     else (.ok (), { st with db := dbSave a.id a st.db }))

/-- `inmemDB.GetArchive` (pure read; the store is unchanged). -/
def getArchive (ctxDone : Bool) (id : String) (st : Store) : Except StoreErr Archive :=
  cond ctxDone (.error .ctxDone)
    (if id = "" then .error .idEmpty
     else
       match dbGet id st.db with
       | none => .error .notFound
       | some a => .ok a)

/-- `inmemDB.DeleteArchive`. -/
def deleteArchive (ctxDone : Bool) (id : String) (st : Store) : Except StoreErr Unit × Store :=
  cond ctxDone ((.error .ctxDone, st))
    (if id = "" then (.error .idEmpty, st)
     else
       match dbGet id st.db with
       | none => (.error .notFound, st)
       | some _ => (.ok (), { st with db := st.db.filter (fun e => !(e.1 = id : Bool)) }))

/-! ### Lock usage of the store

Each `inmemDB` method brackets its map access in exactly one lock
acquisition; this table records which side of the `sync.RWMutex` the
source takes (`mu.Lock` = write, `mu.RLock` = read), and which methods
can mutate the map. -/

inductive LockMode where
  | read
  | write
deriving DecidableEq, Repr

inductive StoreOp where
  | saveArchiveOp
  | getArchiveOp
  | countArchivesInProcessOp
  | deleteArchiveOp
deriving DecidableEq, Repr

/-- Lock side taken by each store method, as written in the source:
`SaveArchive` and `DeleteArchive` call `db.mu.Lock()`, while `GetArchive`
and `CountArchivesInProcess` call `db.mu.RLock()`. -/
def lockModeOf : StoreOp → LockMode
  | .saveArchiveOp => .write
  | .getArchiveOp => .read
  | .countArchivesInProcessOp => .read
  | .deleteArchiveOp => .write

/-! ## Configuration (`internal/config`), restricted to the fields the
lifecycle manager reads. -/

structure Config where
  allowedExtensions : List String
  maxArchivesInProcess : Nat
  maxFilesPerArchive : Nat
deriving Repr

/-! ## File fetcher (`downloadFile` and its helpers) -/

/-- Go `strings.HasPrefix`, translated structurally over the character
list (the library `String.startsWith` is compiled by well-founded
recursion and does not reduce inside proofs). -/
def hasPrefixL : List Char → List Char → Bool
  | _, [] => true
  | [], _ :: _ => false
  | c :: s, p :: ps => c = p && hasPrefixL s ps

/-- Everything before the first occurrence of `c`: the first element of
Go `strings.Split(s, ";")` when `c` is `;`. -/
def takeUntil (c : Char) : List Char → List Char
  | [] => []
  | x :: xs => if x = c then [] else x :: takeUntil c xs

/-- Go `strings.TrimSpace`, structurally: drop whitespace from both
ends. -/
def trimL (l : List Char) : List Char :=
  ((l.dropWhile Char.isWhitespace).reverse.dropWhile Char.isWhitespace).reverse

/-- `archiveService.isValidURL`:
`strings.HasPrefix(url, "http://") || strings.HasPrefix(url, "https://")`. -/
def isValidURL (url : String) : Bool :=
  hasPrefixL url.toList "http://".toList || hasPrefixL url.toList "https://".toList

/-- `archiveService.isValidExt`: strip `;`-parameters, trim whitespace,
exact match against the allow-list. -/
def isValidExt (cfg : Config) (contentType : String) : Bool :=
  cfg.allowedExtensions.contains (String.mk (trimL (takeUntil ';' contentType.toList)))

/-- Go `path.Base`: the last element of the path, after dropping trailing
slashes; `"."` for the empty path, `"/"` for an all-slash path. -/
def pathBase (p : String) : String :=
  if p = "" then "."
  else
    let cs := p.toList.reverse.dropWhile (fun c => c = '/')
    if cs = [] then "/"
    else String.mk (cs.takeWhile (fun c => !(c = '/' : Bool))).reverse

deriving instance DecidableEq for Except

/-- One HTTP response as the fetcher observes it: status code, declared
content type, and the outcome of `io.ReadAll` on the body. -/
structure HttpResp where
  status : Int
  contentType : String
  readBody : Except String (List Nat)
deriving DecidableEq

/-- Error taxonomy of the fetcher, mirroring the sentinel errors the
source wraps (`ErrInvalidFileURL`, `ErrFileDownloadFailed`,
`ErrUnsupportedFile`). -/
inductive FetchErr where
  | invalidURL (detail : String)
  | downloadFailed (detail : String)
  | unsupported (contentType : String)
deriving DecidableEq, Repr

def errInvalidFileURLMsg : String := "некорректный URL файла"

def errFileDownloadFailedMsg : String := "не удалось загрузить файл"

def errUnsupportedFileMsg : String := "неподдерживаемый файл"

def errArchiveBuildMsg : String := "не удалось создать архив"

/-- Rendering of a fetch error as `err.Error()` would print it
(`fmt.Errorf("%w: %v", sentinel, detail)`). -/
def FetchErr.message : FetchErr → String
  | .invalidURL d => errInvalidFileURLMsg ++ ": " ++ d
  | .downloadFailed d => errFileDownloadFailedMsg ++ ": " ++ d
  | .unsupported ct => errUnsupportedFileMsg ++ ": " ++ ct

/-- The effectful collaborators of the service, as an environment:
`mkReqFails` is failure of `http.NewRequestWithContext`, `http` is the
client round trip (`Except.error` = timeout or connection failure),
`saveFile` / `buildZip` return `none` on success and an error message on
failure, `cleanupFails` is best-effort `cleanupTemp`. -/
structure Env where
  mkReqFails : String → Bool
  http : String → Except String HttpResp
  saveFile : String → String → List Nat → Option String
  buildZip : String → List String → Option String
  cleanupFails : String → Bool

/-- `archiveService.downloadFile`, instrumented: the second component
records whether `io.ReadAll(resp.Body)` was reached.  The source checks
the HTTP status, then the content type, and only then reads the body. -/
def downloadFileT (cfg : Config) (env : Env) (url : String) :
    Except FetchErr (List Nat × String) × Bool :=
  cond (env.mkReqFails url) ((.error (.invalidURL "request error"), false))
    (match env.http url with
     | .error e => (.error (.downloadFailed e), false)
     | .ok resp =>
       if resp.status ≠ 200 then
         (.error (.downloadFailed ("HTTP status " ++ toString resp.status)), false)
       else
         cond (!isValidExt cfg resp.contentType)
           ((.error (.unsupported resp.contentType), false))
           (match resp.readBody with
            | .error e => (.error (.downloadFailed e), true)
            | .ok data => (.ok (data, pathBase url), true)))

/-- `downloadFile` as the callers see it (bytes and suggested name, or a
classified error). -/
def downloadFile (cfg : Config) (env : Env) (url : String) :
    Except FetchErr (List Nat × String) :=
  (downloadFileT cfg env url).1

/-! ## Task lifecycle manager (`archive_service`) -/

/-- Error taxonomy of the service, mirroring the sentinel errors of
`archive_service/errors.go` (payloads keep the wrapped detail where a
claim refers to it). -/
inductive SvcErr where
  | contextDone
  | countFailed
  | serverBusy
  | tooManyFiles (n : Nat)
  | archiveSave
  | archiveGet (e : StoreErr)
  | alreadyReady
  | alreadyFailed
  | archiveFull
  | invalidFileURL
  | fileDownloadFailed (detail : String)
  | fileCopyFailed (detail : String)
deriving DecidableEq, Repr

/-- The per-URL body of the loop in `CreateArchive`: shape check, fetch,
save; `Except.ok` carries the file name to append to `files`,
`Except.error` carries the reason string for the `errors` entry. -/
def urlStep (cfg : Config) (env : Env) (archiveID url : String) : Except String String :=
  cond (!isValidURL url) (.error errInvalidFileURLMsg)
    (match downloadFile cfg env url with
     | .error fe => .error fe.message
     | .ok r =>
       match env.saveFile archiveID r.2 r.1 with
       | some e => .error e
       | none => .ok r.2)

/-- One iteration of the `for _, url := range urls` loop of
`CreateArchive`, applied to the accumulated (files, errors) pair `r`. -/
def processStep (cfg : Config) (env : Env) (archiveID url : String)
    (r : List String × List String) : List String × List String :=
  match urlStep cfg env archiveID url with
  | .ok filename => (filename :: r.1, r.2)
  | .error reason => (r.1, (url ++ " - " ++ reason) :: r.2)

/-- The `for _, url := range urls` loop of `CreateArchive`: every URL is
processed; a failure appends `"<url> - <reason>"` to the error list and
`continue`s, a success appends the file name to the file list. -/
def processUrls (cfg : Config) (env : Env) (archiveID : String) :
    List String → List String × List String
  | [] => ([], [])
  | url :: rest => processStep cfg env archiveID url (processUrls cfg env archiveID rest)

/-- The tail of `CreateArchive` after the URL loop: decide the terminal
status from the collected files and the build outcome
(`if len(archive.Files) > 0 { ... buildZip ... } else { failed }`). -/
def bulkFinish (cfg : Config) (env : Env) (now : Int) (newId : String)
    (files errs : List String) : Archive :=
  if 0 < files.length then
    match env.buildZip newId files with
    | some e =>
      { id := newId
        status := .failed
        files := files
        createdAt := now
        updatedAt := now
        errors := errs ++ [errArchiveBuildMsg ++ ": " ++ e] }
    | none =>
      { id := newId
        status := .ready
        files := files
        createdAt := now
        updatedAt := now
        errors := errs }
  else
    { id := newId
      status := .failed
      files := files
      createdAt := now
      updatedAt := now
      errors := errs }

/-- The archive record `CreateArchive` assembles before persisting it:
the processed files and errors, then the build step (`buildZip` when at
least one file was saved; `cleanupTemp` failure is only logged). -/
def bulkArchive (cfg : Config) (env : Env) (now : Int) (newId : String)
    (urls : List String) : Archive :=
  let r := processUrls cfg env newId urls
  bulkFinish cfg env now newId r.1 r.2

/-- `archiveService.CreateArchive` (the bulk `createWithUrls` path):
context check, busy gate via `CountArchivesInProcess`, file-count gate,
per-URL loop, build, persist. -/
def createArchive (cfg : Config) (env : Env) (ctxDone : Bool) (now : Int)
    (newId : String) (urls : List String) (st : Store) : Except SvcErr Archive × Store :=
  cond ctxDone ((.error .contextDone, st)) <|
    let c := countArchivesInProcess ctxDone now st
    match c.1 with
    | .error _ => (.error .countFailed, c.2)
    | .ok cnt =>
      if cfg.maxArchivesInProcess ≤ cnt then (.error .serverBusy, c.2)
      else if cfg.maxFilesPerArchive < urls.length then
        (.error (.tooManyFiles urls.length), c.2)
      else
        let a := bulkArchive cfg env now newId urls
        let s := saveArchive ctxDone a c.2
        match s.1 with
        | .error _ => (.error .archiveSave, s.2)
        | .ok _ => (.ok a, s.2)

/-- `archiveService.CreateEmptyArchive`: context check, busy gate,
persist a fresh task with status `empty` and empty lists. -/
def createEmptyArchive (cfg : Config) (ctxDone : Bool) (now : Int)
    (newId : String) (st : Store) : Except SvcErr Archive × Store :=
  cond ctxDone ((.error .contextDone, st)) <|
    let c := countArchivesInProcess ctxDone now st
    match c.1 with
    | .error _ => (.error .countFailed, c.2)
    | .ok cnt =>
      if cfg.maxArchivesInProcess ≤ cnt then (.error .serverBusy, c.2)
      else
        let a : Archive :=
          { id := newId
            status := .empty
            files := []
            createdAt := now
            updatedAt := now
            errors := [] }
        let s := saveArchive ctxDone a c.2
        match s.1 with
        | .error _ => (.error .archiveSave, s.2)
        | .ok _ => (.ok a, s.2)

/-- The build step at the end of `AddFile`: when the appended file list
has reached the limit, run `buildZip` and set the terminal status
(`cleanupTemp` failure is only logged); otherwise the task is returned
as is. -/
def addFileBuild (cfg : Config) (env : Env) (archiveID : String) (a1 : Archive) : Archive :=
  if a1.files.length = cfg.maxFilesPerArchive then
    match env.buildZip archiveID a1.files with
    | some e =>
      { a1 with
        status := .failed
        errors := a1.errors ++ [errArchiveBuildMsg ++ ": " ++ e] }
    | none => { a1 with status := .ready }
  else a1

/-- The task record `AddFile` persists after a successful fetch and
save: the file name appended, `updatedAt` bumped, `empty` promoted to
`building`, then the at-limit build step. -/
def addFileFinish (cfg : Config) (env : Env) (now : Int) (archiveID : String)
    (a : Archive) (filename : String) : Archive :=
  addFileBuild cfg env archiveID
    { a with
      files := a.files ++ [filename]
      updatedAt := now
      status := if a.status = .empty then ArchiveStatus.building else a.status }

/-- `archiveService.AddFile`: context check, load the task, terminal and
capacity and URL-shape gates, fetch and save, append the file, bump
`updatedAt`, promote `empty` to `building`, build when the limit is
reached, persist. -/
def addFile (cfg : Config) (env : Env) (ctxDone : Bool) (now : Int)
    (archiveID fileURL : String) (st : Store) : Except SvcErr Unit × Store :=
  cond ctxDone ((.error .contextDone, st)) <|
    match getArchive ctxDone archiveID st with
    | .error e => (.error (.archiveGet e), st)
    | .ok a =>
      if a.status = .ready then (.error .alreadyReady, st)
      else if a.status = .failed then (.error .alreadyFailed, st)
      else if cfg.maxFilesPerArchive ≤ a.files.length then (.error .archiveFull, st)
      else
        cond (!isValidURL fileURL) ((.error .invalidFileURL, st)) <|
        match downloadFile cfg env fileURL with
        | .error fe => (.error (.fileDownloadFailed fe.message), st)
        | .ok r =>
          match env.saveFile archiveID r.2 r.1 with
          | some e => (.error (.fileCopyFailed e), st)
          | none =>
            let s := saveArchive ctxDone (addFileFinish cfg env now archiveID a r.2) st
            match s.1 with
            | .error _ => (.error .archiveSave, s.2)
            | .ok _ => (.ok (), s.2)

/-- `archiveService.GetArchive` (the `getStatus` operation): a pure
read-through to the store. -/
def getArchiveStatus (ctxDone : Bool) (archiveID : String) (st : Store) :
    Except SvcErr Archive × Store :=
  cond ctxDone ((.error .contextDone, st)) <|
    match getArchive ctxDone archiveID st with
    | .error e => (.error (.archiveGet e), st)
    | .ok a => (.ok a, st)

/-! ## Spec-side per-URL summaries and concrete instances used in
witnesses and counterexamples -/

/-- Spec-side view of one URL's contribution to `files`: the saved file
name when every stage succeeded. -/
def urlOkEntry (cfg : Config) (env : Env) (archiveID url : String) : Option String :=
  match urlStep cfg env archiveID url with
  | .ok f => some f
  | .error _ => none

/-- Spec-side view of one URL's contribution to `errors`: the formatted
entry when any stage failed. -/
def urlErrEntry (cfg : Config) (env : Env) (archiveID url : String) : Option String :=
  match urlStep cfg env archiveID url with
  | .error r => some (url ++ " - " ++ r)
  | .ok _ => none

def cfgDemo : Config :=
  { allowedExtensions := ["application/pdf", "image/jpeg", "image/jpg"]
    maxArchivesInProcess := 3
    maxFilesPerArchive := 3 }

def respPdfDemo : HttpResp :=
  { status := 200, contentType := "application/pdf", readBody := .ok [7] }

def envDemo : Env :=
  { mkReqFails := fun _ => false
    http := fun _ => .ok respPdfDemo
    saveFile := fun _ _ _ => none
    buildZip := fun _ _ => none
    cleanupFails := fun _ => false }

def stDemo : Store := { ttl := 3600, db := [] }

def staleTaskDemo : Archive :=
  { id := "a", status := .empty, files := [], createdAt := 0, updatedAt := 0, errors := [] }

/-! ## Helper lemmas -/

theorem countArchivesLoop_eq_filter (now ttl : Int) (db : List (String × Archive)) :
    countArchivesLoop now ttl db =
      ((db.filter (fun e => isInProgress e.2.status && !isStale now ttl e.2)).length,
       db.filter (fun e => !(isInProgress e.2.status && isStale now ttl e.2))) := by
  induction db with
  | nil => rfl
  | cons e rest ih =>
    simp only [countArchivesLoop, ih, List.filter]
    cases hp : isInProgress e.2.status <;> cases hs : isStale now ttl e.2 <;> simp

theorem dbGet_dbSave_self (id : String) (a : Archive) (db : List (String × Archive)) :
    dbGet id (dbSave id a db) = some a := by
  induction db with
  | nil => simp [dbGet, dbSave]
  | cons e rest ih =>
    by_cases h : e.1 = id
    · simp [dbGet, dbSave, h]
    · simp [dbGet, dbSave, h, ih]

theorem mem_dbSave (p : String × Archive) (id : String) (a : Archive)
    (db : List (String × Archive)) (hp : p ∈ dbSave id a db) :
    p = (id, a) ∨ p ∈ db := by
  induction db with
  | nil => simpa [dbSave] using hp
  | cons e rest ih =>
    by_cases h : e.1 = id
    · rw [dbSave, if_pos h] at hp
      rcases List.mem_cons.mp hp with h1 | h1
      · exact Or.inl h1
      · exact Or.inr (List.mem_cons.mpr (Or.inr h1))
    · rw [dbSave, if_neg h] at hp
      rcases List.mem_cons.mp hp with h1 | h1
      · exact Or.inr (List.mem_cons.mpr (Or.inl h1))
      · rcases ih h1 with h2 | h2
        · exact Or.inl h2
        · exact Or.inr (List.mem_cons.mpr (Or.inr h2))

theorem processUrls_eq_filterMap (cfg : Config) (env : Env) (archiveID : String)
    (urls : List String) :
    processUrls cfg env archiveID urls =
      (urls.filterMap (urlOkEntry cfg env archiveID),
       urls.filterMap (urlErrEntry cfg env archiveID)) := by
  induction urls with
  | nil => rfl
  | cons u rest ih =>
    cases hu : urlStep cfg env archiveID u <;>
      simp only [processUrls, processStep, hu, ih, List.filterMap_cons, urlOkEntry,
        urlErrEntry]

theorem processUrls_length (cfg : Config) (env : Env) (archiveID : String)
    (urls : List String) :
    (processUrls cfg env archiveID urls).1.length
      + (processUrls cfg env archiveID urls).2.length = urls.length := by
  induction urls with
  | nil => rfl
  | cons u rest ih =>
    cases hu : urlStep cfg env archiveID u <;>
      simp only [processUrls, processStep, hu, List.length_cons] <;> omega

theorem bulkFinish_id (cfg : Config) (env : Env) (now : Int) (newId : String)
    (files errs : List String) : (bulkFinish cfg env now newId files errs).id = newId := by
  unfold bulkFinish
  split
  · split <;> rfl
  · rfl

theorem bulkFinish_files (cfg : Config) (env : Env) (now : Int) (newId : String)
    (files errs : List String) :
    (bulkFinish cfg env now newId files errs).files = files := by
  unfold bulkFinish
  split
  · split <;> rfl
  · rfl

theorem bulkFinish_status (cfg : Config) (env : Env) (now : Int) (newId : String)
    (files errs : List String) :
    (bulkFinish cfg env now newId files errs).status =
      (if 0 < files.length then
        match env.buildZip newId files with
        | some _ => ArchiveStatus.failed
        | none => ArchiveStatus.ready
      else ArchiveStatus.failed) := by
  unfold bulkFinish
  by_cases h : 0 < files.length
  · rw [if_pos h, if_pos h]
    cases hb : env.buildZip newId files <;> simp [hb]
  · rw [if_neg h, if_neg h]

theorem bulkFinish_errors (cfg : Config) (env : Env) (now : Int) (newId : String)
    (files errs : List String) :
    (bulkFinish cfg env now newId files errs).errors = errs ∨
    ∃ b, (bulkFinish cfg env now newId files errs).errors = errs ++ [b] := by
  unfold bulkFinish
  split
  · split
    · exact Or.inr ⟨_, rfl⟩
    · exact Or.inl rfl
  · exact Or.inl rfl

theorem bulkArchive_eq (cfg : Config) (env : Env) (now : Int) (newId : String)
    (urls : List String) :
    bulkArchive cfg env now newId urls =
      bulkFinish cfg env now newId (processUrls cfg env newId urls).1
        (processUrls cfg env newId urls).2 := rfl

theorem saveArchive_run (a : Archive) (st : Store) (hid : a.id ≠ "") :
    saveArchive false a st = (.ok (), { st with db := dbSave a.id a st.db }) := by
  simp only [saveArchive, cond_false, if_neg hid]

theorem createArchive_run (cfg : Config) (env : Env) (now : Int) (newId : String)
    (urls : List String) (st : Store)
    (hbusy : (countArchivesLoop now st.ttl st.db).1 < cfg.maxArchivesInProcess)
    (hlen : urls.length ≤ cfg.maxFilesPerArchive)
    (hid : newId ≠ "") :
    createArchive cfg env false now newId urls st =
      (.ok (bulkArchive cfg env now newId urls),
       { ttl := st.ttl
         db := dbSave newId (bulkArchive cfg env now newId urls)
                 (countArchivesLoop now st.ttl st.db).2 }) := by
  have hidb : (bulkArchive cfg env now newId urls).id ≠ "" := by
    rw [bulkArchive_eq, bulkFinish_id]; exact hid
  simp only [createArchive, countArchivesInProcess, cond_false,
    if_neg (not_le.mpr hbusy), if_neg (not_lt.mpr hlen), saveArchive_run _ _ hidb]
  rw [bulkArchive_eq, bulkFinish_id]

theorem addFileBuild_id (cfg : Config) (env : Env) (archiveID : String) (a1 : Archive) :
    (addFileBuild cfg env archiveID a1).id = a1.id := by
  unfold addFileBuild
  split
  · split <;> rfl
  · rfl

theorem addFileBuild_files (cfg : Config) (env : Env) (archiveID : String) (a1 : Archive) :
    (addFileBuild cfg env archiveID a1).files = a1.files := by
  unfold addFileBuild
  split
  · split <;> rfl
  · rfl

theorem addFileBuild_at_limit (cfg : Config) (env : Env) (archiveID : String) (a1 : Archive)
    (h : a1.files.length = cfg.maxFilesPerArchive) :
    (addFileBuild cfg env archiveID a1).status =
      (match env.buildZip archiveID a1.files with
       | some _ => ArchiveStatus.failed
       | none => ArchiveStatus.ready) := by
  unfold addFileBuild
  rw [if_pos h]
  cases hb : env.buildZip archiveID a1.files <;> simp [hb]

theorem addFileFinish_id (cfg : Config) (env : Env) (now : Int) (archiveID : String)
    (a : Archive) (filename : String) :
    (addFileFinish cfg env now archiveID a filename).id = a.id := by
  unfold addFileFinish
  rw [addFileBuild_id]

theorem addFileFinish_files (cfg : Config) (env : Env) (now : Int) (archiveID : String)
    (a : Archive) (filename : String) :
    (addFileFinish cfg env now archiveID a filename).files = a.files ++ [filename] := by
  unfold addFileFinish
  rw [addFileBuild_files]

theorem getArchive_some (id : String) (st : Store) (a : Archive)
    (hid : id ≠ "") (hget : dbGet id st.db = some a) :
    getArchive false id st = .ok a := by
  simp only [getArchive, cond_false, if_neg hid, hget]

theorem getArchive_none (id : String) (st : Store)
    (hid : id ≠ "") (hget : dbGet id st.db = none) :
    getArchive false id st = .error .notFound := by
  simp only [getArchive, cond_false, if_neg hid, hget]

theorem addFile_getError (cfg : Config) (env : Env) (now : Int) (id url : String)
    (st : Store) (e : StoreErr) (hg : getArchive false id st = .error e) :
    addFile cfg env false now id url st = (.error (.archiveGet e), st) := by
  simp only [addFile, cond_false, hg]

theorem addFile_ready (cfg : Config) (env : Env) (now : Int) (id url : String)
    (st : Store) (a : Archive) (hg : getArchive false id st = .ok a)
    (h1 : a.status = .ready) :
    addFile cfg env false now id url st = (.error .alreadyReady, st) := by
  simp only [addFile, cond_false, hg, if_pos h1]

theorem addFile_failed (cfg : Config) (env : Env) (now : Int) (id url : String)
    (st : Store) (a : Archive) (hg : getArchive false id st = .ok a)
    (h1 : ¬a.status = .ready) (h2 : a.status = .failed) :
    addFile cfg env false now id url st = (.error .alreadyFailed, st) := by
  simp only [addFile, cond_false, hg, if_neg h1, if_pos h2]

theorem addFile_full (cfg : Config) (env : Env) (now : Int) (id url : String)
    (st : Store) (a : Archive) (hg : getArchive false id st = .ok a)
    (h1 : ¬a.status = .ready) (h2 : ¬a.status = .failed)
    (h3 : cfg.maxFilesPerArchive ≤ a.files.length) :
    addFile cfg env false now id url st = (.error .archiveFull, st) := by
  simp only [addFile, cond_false, hg, if_neg h1, if_neg h2, if_pos h3]

theorem addFile_invalidURL (cfg : Config) (env : Env) (now : Int) (id url : String)
    (st : Store) (a : Archive) (hg : getArchive false id st = .ok a)
    (h1 : ¬a.status = .ready) (h2 : ¬a.status = .failed)
    (h3 : ¬cfg.maxFilesPerArchive ≤ a.files.length)
    (h4 : isValidURL url = false) :
    addFile cfg env false now id url st = (.error .invalidFileURL, st) := by
  simp only [addFile, cond_false, hg, if_neg h1, if_neg h2, if_neg h3, h4,
    Bool.not_false, cond_true]

theorem addFile_downloadFailed (cfg : Config) (env : Env) (now : Int) (id url : String)
    (st : Store) (a : Archive) (fe : FetchErr) (hg : getArchive false id st = .ok a)
    (h1 : ¬a.status = .ready) (h2 : ¬a.status = .failed)
    (h3 : ¬cfg.maxFilesPerArchive ≤ a.files.length)
    (h4 : isValidURL url = true)
    (h5 : downloadFile cfg env url = .error fe) :
    addFile cfg env false now id url st = (.error (.fileDownloadFailed fe.message), st) := by
  simp only [addFile, cond_false, hg, if_neg h1, if_neg h2, if_neg h3, h4,
    Bool.not_true, cond_false, h5]

theorem addFile_copyFailed (cfg : Config) (env : Env) (now : Int) (id url : String)
    (st : Store) (a : Archive) (r : List Nat × String) (e : String)
    (hg : getArchive false id st = .ok a)
    (h1 : ¬a.status = .ready) (h2 : ¬a.status = .failed)
    (h3 : ¬cfg.maxFilesPerArchive ≤ a.files.length)
    (h4 : isValidURL url = true)
    (h5 : downloadFile cfg env url = .ok r)
    (h6 : env.saveFile id r.2 r.1 = some e) :
    addFile cfg env false now id url st = (.error (.fileCopyFailed e), st) := by
  simp only [addFile, cond_false, hg, if_neg h1, if_neg h2, if_neg h3, h4,
    Bool.not_true, cond_false, h5, h6]

theorem addFile_saveFail (cfg : Config) (env : Env) (now : Int) (id url : String)
    (st : Store) (a : Archive) (r : List Nat × String)
    (hg : getArchive false id st = .ok a)
    (h1 : ¬a.status = .ready) (h2 : ¬a.status = .failed)
    (h3 : ¬cfg.maxFilesPerArchive ≤ a.files.length)
    (h4 : isValidURL url = true)
    (h5 : downloadFile cfg env url = .ok r)
    (h6 : env.saveFile id r.2 r.1 = none)
    (hida : a.id = "") :
    addFile cfg env false now id url st = (.error .archiveSave, st) := by
  have hfid : (addFileFinish cfg env now id a r.2).id = "" := by
    rw [addFileFinish_id]; exact hida
  simp only [addFile, cond_false, hg, if_neg h1, if_neg h2, if_neg h3, h4,
    Bool.not_true, cond_false, h5, h6, saveArchive, if_pos hfid]

theorem addFile_success (cfg : Config) (env : Env) (now : Int) (id url : String)
    (st : Store) (a : Archive) (r : List Nat × String)
    (hg : getArchive false id st = .ok a)
    (h1 : ¬a.status = .ready) (h2 : ¬a.status = .failed)
    (h3 : ¬cfg.maxFilesPerArchive ≤ a.files.length)
    (h4 : isValidURL url = true)
    (h5 : downloadFile cfg env url = .ok r)
    (h6 : env.saveFile id r.2 r.1 = none)
    (hida : a.id ≠ "") :
    addFile cfg env false now id url st =
      (.ok (), { st with
        db := dbSave a.id (addFileFinish cfg env now id a r.2) st.db }) := by
  have hfid : (addFileFinish cfg env now id a r.2).id ≠ "" := by
    rw [addFileFinish_id]; exact hida
  simp only [addFile, cond_false, hg, if_neg h1, if_neg h2, if_neg h3, h4,
    Bool.not_true, cond_false, h5, h6, saveArchive_run _ _ hfid]
  rw [addFileFinish_id]

theorem addFile_error_state (cfg : Config) (env : Env) (now : Int) (id url : String)
    (st : Store) (e : SvcErr)
    (h : (addFile cfg env false now id url st).1 = .error e) :
    (addFile cfg env false now id url st).2 = st := by
  cases hg : getArchive false id st with
  | error e' => rw [addFile_getError cfg env now id url st e' hg]
  | ok a =>
    by_cases h1 : a.status = .ready
    · rw [addFile_ready cfg env now id url st a hg h1]
    · by_cases h2 : a.status = .failed
      · rw [addFile_failed cfg env now id url st a hg h1 h2]
      · by_cases h3 : cfg.maxFilesPerArchive ≤ a.files.length
        · rw [addFile_full cfg env now id url st a hg h1 h2 h3]
        · cases h4 : isValidURL url with
          | false => rw [addFile_invalidURL cfg env now id url st a hg h1 h2 h3 h4]
          | true =>
            cases h5 : downloadFile cfg env url with
            | error fe =>
              rw [addFile_downloadFailed cfg env now id url st a fe hg h1 h2 h3 h4 h5]
            | ok r =>
              cases h6 : env.saveFile id r.2 r.1 with
              | some msg =>
                rw [addFile_copyFailed cfg env now id url st a r msg hg h1 h2 h3 h4 h5 h6]
              | none =>
                by_cases hida : a.id = ""
                · rw [addFile_saveFail cfg env now id url st a r hg h1 h2 h3 h4 h5 h6 hida]
                · rw [addFile_success cfg env now id url st a r hg h1 h2 h3 h4 h5 h6 hida] at h
                  exact absurd h (by simp)

theorem createArchive_busy (cfg : Config) (env : Env) (now : Int) (newId : String)
    (urls : List String) (st : Store)
    (h : cfg.maxArchivesInProcess ≤ (countArchivesLoop now st.ttl st.db).1) :
    createArchive cfg env false now newId urls st =
      (.error .serverBusy, { st with db := (countArchivesLoop now st.ttl st.db).2 }) := by
  simp only [createArchive, countArchivesInProcess, cond_false, if_pos h]

theorem createArchive_tooMany (cfg : Config) (env : Env) (now : Int) (newId : String)
    (urls : List String) (st : Store)
    (hb : ¬cfg.maxArchivesInProcess ≤ (countArchivesLoop now st.ttl st.db).1)
    (hl : cfg.maxFilesPerArchive < urls.length) :
    createArchive cfg env false now newId urls st =
      (.error (.tooManyFiles urls.length),
       { st with db := (countArchivesLoop now st.ttl st.db).2 }) := by
  simp only [createArchive, countArchivesInProcess, cond_false, if_neg hb, if_pos hl]

theorem createArchive_saveFail (cfg : Config) (env : Env) (now : Int) (newId : String)
    (urls : List String) (st : Store)
    (hb : ¬cfg.maxArchivesInProcess ≤ (countArchivesLoop now st.ttl st.db).1)
    (hl : ¬cfg.maxFilesPerArchive < urls.length)
    (hid : newId = "") :
    createArchive cfg env false now newId urls st =
      (.error .archiveSave, { st with db := (countArchivesLoop now st.ttl st.db).2 }) := by
  have hbid : (bulkArchive cfg env now newId urls).id = "" := by
    rw [bulkArchive_eq, bulkFinish_id]; exact hid
  simp only [createArchive, countArchivesInProcess, cond_false, if_neg hb, if_neg hl,
    saveArchive, if_pos hbid]

theorem createEmptyArchive_busy (cfg : Config) (now : Int) (newId : String) (st : Store)
    (h : cfg.maxArchivesInProcess ≤ (countArchivesLoop now st.ttl st.db).1) :
    createEmptyArchive cfg false now newId st =
      (.error .serverBusy, { st with db := (countArchivesLoop now st.ttl st.db).2 }) := by
  simp only [createEmptyArchive, countArchivesInProcess, cond_false, if_pos h]

theorem createEmptyArchive_saveFail (cfg : Config) (now : Int) (newId : String) (st : Store)
    (hb : ¬cfg.maxArchivesInProcess ≤ (countArchivesLoop now st.ttl st.db).1)
    (hid : newId = "") :
    createEmptyArchive cfg false now newId st =
      (.error .archiveSave, { st with db := (countArchivesLoop now st.ttl st.db).2 }) := by
  simp only [createEmptyArchive, countArchivesInProcess, cond_false, if_neg hb,
    saveArchive, if_pos hid]

theorem createEmptyArchive_run (cfg : Config) (now : Int) (newId : String) (st : Store)
    (hb : ¬cfg.maxArchivesInProcess ≤ (countArchivesLoop now st.ttl st.db).1)
    (hid : newId ≠ "") :
    createEmptyArchive cfg false now newId st =
      (.ok { id := newId
             status := .empty
             files := []
             createdAt := now
             updatedAt := now
             errors := [] },
       { ttl := st.ttl
         db := dbSave newId
                 { id := newId
                   status := .empty
                   files := []
                   createdAt := now
                   updatedAt := now
                   errors := [] }
                 (countArchivesLoop now st.ttl st.db).2 }) := by
  have ha : (⟨newId, .empty, [], now, now, []⟩ : Archive).id ≠ "" := hid
  simp only [createEmptyArchive, countArchivesInProcess, cond_false, if_neg hb,
    saveArchive_run _ _ ha]

theorem getArchiveStatus_state (id : String) (st : Store) :
    (getArchiveStatus false id st).2 = st := by
  cases hg : getArchive false id st <;> simp only [getArchiveStatus, cond_false, hg]

/-! ## Claim theorems -/

/-- Claim C5: for every store state, `CountArchivesInProcess` returns
exactly the number of tasks in `empty` or `building` status that survive
TTL reaping, after deleting every in-progress task older than the TTL;
`ready` and `failed` tasks are never counted and never reaped. -/
theorem countArchivesInProcess_reaps_then_counts (now : Int) (st : Store) :
    countArchivesInProcess false now st =
      (.ok ((st.db.filter fun e => isInProgress e.2.status && !isStale now st.ttl e.2).length),
       { st with
         db := st.db.filter fun e => !(isInProgress e.2.status && isStale now st.ttl e.2) }) := by
  simp only [countArchivesInProcess, cond_false, countArchivesLoop_eq_filter]

/-- Claim C6: the spec requires every mutation of the task map to hold
the write lock, and `CountArchivesInProcess` in particular; in the code
`CountArchivesInProcess` takes only the read lock (`mu.RLock`) yet
deletes stale entries under it (shown here deleting a stale `empty`
task), while `SaveArchive` and `DeleteArchive` do take the write lock. -/
theorem countInProgress_read_lock_yet_deletes :
    lockModeOf StoreOp.countArchivesInProcessOp = LockMode.read ∧
    (countArchivesInProcess false 100 { ttl := 1, db := [("a", staleTaskDemo)] }).2.db = [] ∧
    lockModeOf StoreOp.saveArchiveOp = LockMode.write ∧
    lockModeOf StoreOp.deleteArchiveOp = LockMode.write := by
  decide

/-- Claim C10: calling `CreateArchive` with an empty URL list while the
server is not busy succeeds: the empty list passes the file-count gate,
no build is attempted, and the persisted task has status `failed` with
empty `files` and `errors`. -/
theorem createArchive_emptyUrls (cfg : Config) (env : Env) (now : Int) (newId : String)
    (st : Store)
    (hb : (countArchivesLoop now st.ttl st.db).1 < cfg.maxArchivesInProcess)
    (hid : newId ≠ "") :
    ∃ a st', createArchive cfg env false now newId [] st = (.ok a, st') ∧
      a.status = .failed ∧ a.files = [] ∧ a.errors = [] ∧ dbGet newId st'.db = some a := by
  refine ⟨bulkArchive cfg env now newId [], _,
    createArchive_run cfg env now newId [] st hb (by simp) hid, ?_, ?_, ?_,
    dbGet_dbSave_self _ _ _⟩
  · rfl
  · rfl
  · rfl

theorem createArchive_emptyUrls_witness :
    (countArchivesLoop 0 stDemo.ttl stDemo.db).1 < cfgDemo.maxArchivesInProcess ∧
    ("t1" : String) ≠ "" ∧
    (∃ a st', createArchive cfgDemo envDemo false 0 "t1" [] stDemo = (.ok a, st') ∧
      a.status = .failed ∧ a.files = [] ∧ a.errors = [] ∧ dbGet "t1" st'.db = some a) :=
  ⟨by decide, by decide,
   createArchive_emptyUrls cfgDemo envDemo 0 "t1" stDemo (by decide) (by decide)⟩

/-- Claim C1: for every URL list that passes the busy gate and the
file-count gate, `CreateArchive` returns a persisted task and no error
regardless of how many URLs fail: each input URL contributes exactly one
entry — its file name appended to `files` on success, or the formatted
`"<url> - <reason>"` string appended to `errors` on failure at any stage
— and one URL's failure never stops the processing of the rest (beyond
the per-URL entries, `errors` can only gain the single build-failure
entry). -/
theorem createArchive_per_url_aggregation (cfg : Config) (env : Env) (now : Int)
    (newId : String) (urls : List String) (st : Store)
    (hbusy : (countArchivesLoop now st.ttl st.db).1 < cfg.maxArchivesInProcess)
    (hlen : urls.length ≤ cfg.maxFilesPerArchive)
    (hid : newId ≠ "") :
    ∃ a st', createArchive cfg env false now newId urls st = (.ok a, st') ∧
      dbGet newId st'.db = some a ∧
      a.files = urls.filterMap (urlOkEntry cfg env newId) ∧
      (a.errors = urls.filterMap (urlErrEntry cfg env newId) ∨
        ∃ b, a.errors = urls.filterMap (urlErrEntry cfg env newId) ++ [b]) ∧
      a.files.length + (urls.filterMap (urlErrEntry cfg env newId)).length = urls.length := by
  have hp := processUrls_eq_filterMap cfg env newId urls
  have hfiles : (bulkArchive cfg env now newId urls).files
      = urls.filterMap (urlOkEntry cfg env newId) := by
    rw [bulkArchive_eq, bulkFinish_files, hp]
  refine ⟨bulkArchive cfg env now newId urls, _,
    createArchive_run cfg env now newId urls st hbusy hlen hid,
    dbGet_dbSave_self _ _ _, hfiles, ?_, ?_⟩
  · simp only [bulkArchive_eq, hp]
    exact bulkFinish_errors cfg env now newId _ _
  · have hl := processUrls_length cfg env newId urls
    rw [hp] at hl
    simp only [hfiles]
    simpa using hl

theorem createArchive_per_url_aggregation_witness :
    (countArchivesLoop 0 stDemo.ttl stDemo.db).1 < cfgDemo.maxArchivesInProcess ∧
    (["http://h/a.pdf", "bad"] : List String).length ≤ cfgDemo.maxFilesPerArchive ∧
    (∃ a st',
      createArchive cfgDemo envDemo false 0 "t1" ["http://h/a.pdf", "bad"] stDemo
        = (.ok a, st') ∧
      dbGet "t1" st'.db = some a ∧
      a.files = ["http://h/a.pdf", "bad"].filterMap (urlOkEntry cfgDemo envDemo "t1") ∧
      (a.errors = ["http://h/a.pdf", "bad"].filterMap (urlErrEntry cfgDemo envDemo "t1") ∨
        ∃ b, a.errors
          = ["http://h/a.pdf", "bad"].filterMap (urlErrEntry cfgDemo envDemo "t1") ++ [b]) ∧
      a.files.length
        + (["http://h/a.pdf", "bad"].filterMap (urlErrEntry cfgDemo envDemo "t1")).length
        = (["http://h/a.pdf", "bad"] : List String).length) :=
  ⟨by decide, by decide,
   createArchive_per_url_aggregation cfgDemo envDemo 0 "t1" ["http://h/a.pdf", "bad"]
     stDemo (by decide) (by decide) (by decide)⟩

/-- Claim C2: on both creation paths the terminal status is determined
exactly by whether any file was added and whether the ZIP build
succeeded.  For `CreateArchive`: `ready` iff `files` is non-empty and
the build succeeded; `failed` iff `files` is empty or the build failed;
no other outcome.  For `AddFile` reaching the file limit: the persisted
task is `ready` iff the build succeeded and `failed` iff it failed, with
a non-empty file list. -/
theorem terminal_status_iff_build :
    (∀ (cfg : Config) (env : Env) (now : Int) (newId : String) (urls : List String)
        (st : Store) (a : Archive) (st' : Store),
      (countArchivesLoop now st.ttl st.db).1 < cfg.maxArchivesInProcess →
      urls.length ≤ cfg.maxFilesPerArchive → newId ≠ "" →
      createArchive cfg env false now newId urls st = (.ok a, st') →
      (a.status = .ready ∨ a.status = .failed) ∧
      (a.status = .ready ↔ a.files ≠ [] ∧ env.buildZip newId a.files = none) ∧
      (a.status = .failed ↔ a.files = [] ∨ env.buildZip newId a.files ≠ none)) ∧
    (∀ (cfg : Config) (env : Env) (now : Int) (archiveID fileURL : String) (st : Store)
        (a : Archive) (r : List Nat × String),
      getArchive false archiveID st = .ok a → a.id = archiveID → archiveID ≠ "" →
      ¬a.status = .ready → ¬a.status = .failed →
      isValidURL fileURL = true →
      downloadFile cfg env fileURL = .ok r →
      env.saveFile archiveID r.2 r.1 = none →
      a.files.length + 1 = cfg.maxFilesPerArchive →
      ∃ a2, (addFile cfg env false now archiveID fileURL st).1 = .ok () ∧
        dbGet archiveID (addFile cfg env false now archiveID fileURL st).2.db = some a2 ∧
        a2.files ≠ [] ∧
        (a2.status = .ready ∨ a2.status = .failed) ∧
        (a2.status = .ready ↔ env.buildZip archiveID a2.files = none) ∧
        (a2.status = .failed ↔ env.buildZip archiveID a2.files ≠ none)) := by
  constructor
  · intro cfg env now newId urls st a st' hbusy hlen hid heq
    rw [createArchive_run cfg env now newId urls st hbusy hlen hid] at heq
    have ha : a = bulkArchive cfg env now newId urls := by
      have h1 := congrArg Prod.fst heq
      simpa using h1.symm
    subst ha
    have hfl : (bulkArchive cfg env now newId urls).files
        = (processUrls cfg env newId urls).1 := by
      rw [bulkArchive_eq, bulkFinish_files]
    by_cases hf : 0 < (processUrls cfg env newId urls).1.length
    · have hne : (processUrls cfg env newId urls).1 ≠ [] := List.length_pos.mp hf
      cases hb : env.buildZip newId (processUrls cfg env newId urls).1 with
      | none =>
        have hs : (bulkArchive cfg env now newId urls).status = .ready := by
          rw [bulkArchive_eq, bulkFinish_status, if_pos hf, hb]
        simp [hs, hfl, hb, hne]
      | some e =>
        have hs : (bulkArchive cfg env now newId urls).status = .failed := by
          rw [bulkArchive_eq, bulkFinish_status, if_pos hf, hb]
        simp [hs, hfl, hb, hne]
    · have hnil : (processUrls cfg env newId urls).1 = [] := by
        have := Nat.eq_zero_of_not_pos hf
        exact List.length_eq_zero.mp this
      have hs : (bulkArchive cfg env now newId urls).status = .failed := by
        rw [bulkArchive_eq, bulkFinish_status, if_neg hf]
      simp [hs, hfl, hnil]
  · intro cfg env now id url st a r hg haid hid h1 h2 hurl hdl hsv hlim
    have h3 : ¬cfg.maxFilesPerArchive ≤ a.files.length := by omega
    have hida : a.id ≠ "" := by rw [haid]; exact hid
    rw [addFile_success cfg env now id url st a r hg h1 h2 h3 hurl hdl hsv hida]
    have hl1 : ({ a with
        files := a.files ++ [r.2]
        updatedAt := now
        status := if a.status = .empty then ArchiveStatus.building else a.status }
          : Archive).files.length = cfg.maxFilesPerArchive := by
      show (a.files ++ [r.2]).length = cfg.maxFilesPerArchive
      simp only [List.length_append, List.length_singleton]
      omega
    have hstat : (addFileFinish cfg env now id a r.2).status =
        (match env.buildZip id (a.files ++ [r.2]) with
         | some _ => ArchiveStatus.failed
         | none => ArchiveStatus.ready) :=
      addFileBuild_at_limit cfg env id _ hl1
    have hfiles2 : (addFileFinish cfg env now id a r.2).files = a.files ++ [r.2] :=
      addFileFinish_files cfg env now id a r.2
    refine ⟨addFileFinish cfg env now id a r.2, rfl, ?_, ?_, ?_, ?_, ?_⟩
    · show dbGet id (dbSave a.id (addFileFinish cfg env now id a r.2) st.db) = some _
      rw [haid]
      exact dbGet_dbSave_self _ _ _
    · rw [hfiles2]; simp
    · rw [hstat]
      cases hb : env.buildZip id (a.files ++ [r.2]) <;> simp
    · rw [hstat, hfiles2]
      cases hb : env.buildZip id (a.files ++ [r.2]) <;> simp [hb]
    · rw [hstat, hfiles2]
      cases hb : env.buildZip id (a.files ++ [r.2]) <;> simp [hb]

def readyTaskDemo : Archive :=
  { id := "t1", status := .ready, files := ["a.pdf"], createdAt := 0, updatedAt := 0,
    errors := [] }

def stAfterDemo : Store := { ttl := 3600, db := [("t1", readyTaskDemo)] }

def buildingTaskDemo : Archive :=
  { id := "t2", status := .building, files := ["x.pdf", "y.pdf"], createdAt := 0,
    updatedAt := 0, errors := [] }

def stOneDemo : Store := { ttl := 3600, db := [("t2", buildingTaskDemo)] }

def respHtmlDemo : HttpResp :=
  { status := 200, contentType := "text/html", readBody := .ok [7] }

def envHtmlDemo : Env := { envDemo with http := fun _ => .ok respHtmlDemo }

def resp204Demo : HttpResp :=
  { status := 204, contentType := "application/pdf", readBody := .ok [7] }

def env204Demo : Env := { envDemo with http := fun _ => .ok resp204Demo }

theorem terminal_status_iff_build_witness :
    ((readyTaskDemo.status = .ready ∨ readyTaskDemo.status = .failed) ∧
     (readyTaskDemo.status = .ready ↔
        readyTaskDemo.files ≠ [] ∧ envDemo.buildZip "t1" readyTaskDemo.files = none) ∧
     (readyTaskDemo.status = .failed ↔
        readyTaskDemo.files = [] ∨ envDemo.buildZip "t1" readyTaskDemo.files ≠ none)) ∧
    (∃ a2, (addFile cfgDemo envDemo false 5 "t2" "http://h/c.pdf" stOneDemo).1 = .ok () ∧
      dbGet "t2" (addFile cfgDemo envDemo false 5 "t2" "http://h/c.pdf" stOneDemo).2.db
        = some a2 ∧
      a2.files ≠ [] ∧
      (a2.status = .ready ∨ a2.status = .failed) ∧
      (a2.status = .ready ↔ envDemo.buildZip "t2" a2.files = none) ∧
      (a2.status = .failed ↔ envDemo.buildZip "t2" a2.files ≠ none)) :=
  ⟨terminal_status_iff_build.1 cfgDemo envDemo 0 "t1" ["http://h/a.pdf"] stDemo
     readyTaskDemo stAfterDemo (by decide) (by decide) (by decide) (by decide),
   terminal_status_iff_build.2 cfgDemo envDemo 5 "t2" "http://h/c.pdf" stOneDemo
     buildingTaskDemo ([7], "c.pdf") (by decide) (by decide) (by decide) (by decide)
     (by decide) (by decide) (by decide) (by decide) (by decide)⟩

/-- Claim C3 counterexample: a 200 response with content type
`text/html` is rejected as `UnsupportedFile` with the body-read flag
still `false` — the fetcher rejects on the declared content type
without reading the body, contradicting the claim that the bytes are
always fully read before a type-based rejection. -/
theorem downloadFile_unsupported_without_read_cex :
    (downloadFileT cfgDemo envHtmlDemo "http://h/f.pdf").1
      = .error (.unsupported "text/html") ∧
    (downloadFileT cfgDemo envHtmlDemo "http://h/f.pdf").2 = false := by
  decide

/-- Claim C3 (amended): the fetcher rejects an unsupported content type
before the body is read: whenever `downloadFile` fails with
`UnsupportedFile`, `io.ReadAll` on the response body was never reached. -/
theorem downloadFileT_reqFail (cfg : Config) (env : Env) (url : String)
    (hreq : env.mkReqFails url = true) :
    downloadFileT cfg env url = (.error (.invalidURL "request error"), false) := by
  simp only [downloadFileT, hreq, cond_true]

theorem downloadFileT_httpErr (cfg : Config) (env : Env) (url e : String)
    (hreq : env.mkReqFails url = false) (hh : env.http url = .error e) :
    downloadFileT cfg env url = (.error (.downloadFailed e), false) := by
  simp only [downloadFileT, hreq, cond_false, hh]

theorem downloadFileT_badStatus (cfg : Config) (env : Env) (url : String) (resp : HttpResp)
    (hreq : env.mkReqFails url = false) (hh : env.http url = .ok resp)
    (hst : resp.status ≠ 200) :
    downloadFileT cfg env url
      = (.error (.downloadFailed ("HTTP status " ++ toString resp.status)), false) := by
  simp only [downloadFileT, hreq, cond_false, hh, if_pos hst]

theorem downloadFileT_badType (cfg : Config) (env : Env) (url : String) (resp : HttpResp)
    (hreq : env.mkReqFails url = false) (hh : env.http url = .ok resp)
    (hst : ¬resp.status ≠ 200) (hv : isValidExt cfg resp.contentType = false) :
    downloadFileT cfg env url = (.error (.unsupported resp.contentType), false) := by
  simp only [downloadFileT, hreq, cond_false, hh, if_neg hst, hv, Bool.not_false,
    cond_true]

theorem downloadFileT_readErr (cfg : Config) (env : Env) (url e : String) (resp : HttpResp)
    (hreq : env.mkReqFails url = false) (hh : env.http url = .ok resp)
    (hst : ¬resp.status ≠ 200) (hv : isValidExt cfg resp.contentType = true)
    (hb : resp.readBody = .error e) :
    downloadFileT cfg env url = (.error (.downloadFailed e), true) := by
  simp only [downloadFileT, hreq, cond_false, hh, if_neg hst, hv, Bool.not_true,
    cond_false, hb]

theorem downloadFileT_okRun (cfg : Config) (env : Env) (url : String) (resp : HttpResp)
    (data : List Nat)
    (hreq : env.mkReqFails url = false) (hh : env.http url = .ok resp)
    (hst : ¬resp.status ≠ 200) (hv : isValidExt cfg resp.contentType = true)
    (hb : resp.readBody = .ok data) :
    downloadFileT cfg env url = (.ok (data, pathBase url), true) := by
  simp only [downloadFileT, hreq, cond_false, hh, if_neg hst, hv, Bool.not_true,
    cond_false, hb]

theorem downloadFile_unsupported_body_not_read (cfg : Config) (env : Env) (url : String)
    (c : String)
    (h : (downloadFileT cfg env url).1 = .error (.unsupported c)) :
    (downloadFileT cfg env url).2 = false := by
  cases hm : env.mkReqFails url
  case true => rw [downloadFileT_reqFail cfg env url hm]
  case false =>
    cases hh : env.http url
    case error e => rw [downloadFileT_httpErr cfg env url e hm hh]
    case ok resp =>
      by_cases hst : resp.status ≠ 200
      · rw [downloadFileT_badStatus cfg env url resp hm hh hst]
      · cases hv : isValidExt cfg resp.contentType
        · rw [downloadFileT_badType cfg env url resp hm hh hst hv]
        · cases hb : resp.readBody
          · rename_i e
            rw [downloadFileT_readErr cfg env url e resp hm hh hst hv hb] at h
            exact absurd h (by simp)
          · rename_i data
            rw [downloadFileT_okRun cfg env url resp data hm hh hst hv hb] at h
            exact absurd h (by simp)

theorem downloadFile_unsupported_body_not_read_witness :
    (downloadFileT cfgDemo envHtmlDemo "http://h/g.pdf").1
      = .error (.unsupported "text/html") ∧
    (downloadFileT cfgDemo envHtmlDemo "http://h/g.pdf").2 = false :=
  ⟨by decide,
   downloadFile_unsupported_body_not_read cfgDemo envHtmlDemo "http://h/g.pdf"
     "text/html" (by decide)⟩

/-- Claim C4 counterexample: a GET answered with status 204 — a 2xx
status — and the allow-listed content type `application/pdf` is still
classified as `DownloadFailed`: the code accepts only status 200, not
any 2xx. -/
theorem downloadFile_status204_rejected_cex :
    isValidExt cfgDemo "application/pdf" = true ∧
    downloadFile cfgDemo env204Demo "http://h/f.pdf"
      = .error (.downloadFailed "HTTP status 204") := by
  decide

/-- Claim C4 (amended): any transport failure is classified as
`DownloadFailed`; any response status other than exactly 200 is
classified as `DownloadFailed` with the status retained; and a GET that
returns status 200 with an allow-listed content type and a readable body
yields the bytes and the suggested name. -/
theorem downloadFile_classification (cfg : Config) (env : Env) (url : String)
    (hreq : env.mkReqFails url = false) :
    (∀ e, env.http url = .error e →
      downloadFile cfg env url = .error (.downloadFailed e)) ∧
    (∀ resp, env.http url = .ok resp → resp.status ≠ 200 →
      downloadFile cfg env url
        = .error (.downloadFailed ("HTTP status " ++ toString resp.status))) ∧
    (∀ resp data, env.http url = .ok resp → resp.status = 200 →
      isValidExt cfg resp.contentType = true → resp.readBody = .ok data →
      downloadFile cfg env url = .ok (data, pathBase url)) := by
  refine ⟨?_, ?_, ?_⟩
  · intro e hh
    simp only [downloadFile, downloadFileT, hreq, cond_false, hh]
  · intro resp hh hst
    simp only [downloadFile, downloadFileT, hreq, cond_false, hh, if_pos hst]
  · intro resp data hh hst hv hb
    have hst' : ¬resp.status ≠ 200 := by simp [hst]
    simp only [downloadFile, downloadFileT, hreq, cond_false, hh, if_neg hst', hv,
      Bool.not_true, cond_false, hb]

theorem downloadFile_classification_witness :
    envDemo.mkReqFails "http://h/a.pdf" = false ∧
    downloadFile cfgDemo envDemo "http://h/a.pdf" = .ok ([7], pathBase "http://h/a.pdf") :=
  ⟨by decide,
   (downloadFile_classification cfgDemo envDemo "http://h/a.pdf" (by decide)).2.2
     respPdfDemo [7] (by decide) (by decide) (by decide) (by decide)⟩

/-- Claim C7: every `AddFile` failure before a file is accepted — task
not found (a `NotFound`-derived store error), task already terminal
(distinct `AlreadyReady` / `AlreadyFailed` values), archive at the file
limit (`ArchiveFull`), invalid URL shape (`InvalidURL`), download or
save failure — is returned directly to the caller, and any error leaves
the stored task state completely unchanged. -/
theorem addFile_failures_direct_and_stateless :
    (∀ (cfg : Config) (env : Env) (now : Int) (id url : String) (st : Store) (e : SvcErr),
      (addFile cfg env false now id url st).1 = .error e →
      (addFile cfg env false now id url st).2 = st) ∧
    SvcErr.alreadyReady ≠ SvcErr.alreadyFailed ∧
    (∀ (cfg : Config) (env : Env) (now : Int) (id url : String) (st : Store),
      id ≠ "" → dbGet id st.db = none →
      addFile cfg env false now id url st = (.error (.archiveGet .notFound), st)) ∧
    (∀ (cfg : Config) (env : Env) (now : Int) (id url : String) (st : Store) (a : Archive),
      id ≠ "" → dbGet id st.db = some a → a.status = .ready →
      addFile cfg env false now id url st = (.error .alreadyReady, st)) ∧
    (∀ (cfg : Config) (env : Env) (now : Int) (id url : String) (st : Store) (a : Archive),
      id ≠ "" → dbGet id st.db = some a → ¬a.status = .ready → a.status = .failed →
      addFile cfg env false now id url st = (.error .alreadyFailed, st)) ∧
    (∀ (cfg : Config) (env : Env) (now : Int) (id url : String) (st : Store) (a : Archive),
      id ≠ "" → dbGet id st.db = some a → ¬a.status = .ready → ¬a.status = .failed →
      cfg.maxFilesPerArchive ≤ a.files.length →
      addFile cfg env false now id url st = (.error .archiveFull, st)) ∧
    (∀ (cfg : Config) (env : Env) (now : Int) (id url : String) (st : Store) (a : Archive),
      id ≠ "" → dbGet id st.db = some a → ¬a.status = .ready → ¬a.status = .failed →
      ¬cfg.maxFilesPerArchive ≤ a.files.length → isValidURL url = false →
      addFile cfg env false now id url st = (.error .invalidFileURL, st)) ∧
    (∀ (cfg : Config) (env : Env) (now : Int) (id url : String) (st : Store) (a : Archive)
        (fe : FetchErr),
      id ≠ "" → dbGet id st.db = some a → ¬a.status = .ready → ¬a.status = .failed →
      ¬cfg.maxFilesPerArchive ≤ a.files.length → isValidURL url = true →
      downloadFile cfg env url = .error fe →
      addFile cfg env false now id url st
        = (.error (.fileDownloadFailed fe.message), st)) ∧
    (∀ (cfg : Config) (env : Env) (now : Int) (id url : String) (st : Store) (a : Archive)
        (r : List Nat × String) (msg : String),
      id ≠ "" → dbGet id st.db = some a → ¬a.status = .ready → ¬a.status = .failed →
      ¬cfg.maxFilesPerArchive ≤ a.files.length → isValidURL url = true →
      downloadFile cfg env url = .ok r → env.saveFile id r.2 r.1 = some msg →
      addFile cfg env false now id url st = (.error (.fileCopyFailed msg), st)) := by
  refine ⟨?_, by simp, ?_, ?_, ?_, ?_, ?_, ?_, ?_⟩
  · intro cfg env now id url st e h
    exact addFile_error_state cfg env now id url st e h
  · intro cfg env now id url st hid hget
    exact addFile_getError cfg env now id url st .notFound (getArchive_none id st hid hget)
  · intro cfg env now id url st a hid hget h1
    exact addFile_ready cfg env now id url st a (getArchive_some id st a hid hget) h1
  · intro cfg env now id url st a hid hget h1 h2
    exact addFile_failed cfg env now id url st a (getArchive_some id st a hid hget) h1 h2
  · intro cfg env now id url st a hid hget h1 h2 h3
    exact addFile_full cfg env now id url st a (getArchive_some id st a hid hget) h1 h2 h3
  · intro cfg env now id url st a hid hget h1 h2 h3 h4
    exact addFile_invalidURL cfg env now id url st a (getArchive_some id st a hid hget)
      h1 h2 h3 h4
  · intro cfg env now id url st a fe hid hget h1 h2 h3 h4 h5
    exact addFile_downloadFailed cfg env now id url st a fe
      (getArchive_some id st a hid hget) h1 h2 h3 h4 h5
  · intro cfg env now id url st a r msg hid hget h1 h2 h3 h4 h5 h6
    exact addFile_copyFailed cfg env now id url st a r msg
      (getArchive_some id st a hid hget) h1 h2 h3 h4 h5 h6

theorem addFile_failures_direct_and_stateless_witness :
    ("t1" : String) ≠ "" ∧ dbGet "t1" stAfterDemo.db = some readyTaskDemo ∧
    readyTaskDemo.status = .ready ∧
    addFile cfgDemo envDemo false 0 "t1" "http://h/x.pdf" stAfterDemo
      = (.error .alreadyReady, stAfterDemo) :=
  ⟨by decide, by decide, by decide,
   addFile_failures_direct_and_stateless.2.2.2.1 cfgDemo envDemo 0 "t1" "http://h/x.pdf"
     stAfterDemo readyTaskDemo (by decide) (by decide) (by decide)⟩

/-- The per-task invariant of the store: no stored task holds more than
`maxFilesPerArchive` files. -/
def storeInv (cfg : Config) (st : Store) : Prop :=
  ∀ p ∈ st.db, p.2.files.length ≤ cfg.maxFilesPerArchive

theorem storeInv_filter (cfg : Config) (st : Store) (f : String × Archive → Bool)
    (h : storeInv cfg st) : storeInv cfg { st with db := st.db.filter f } := by
  intro p hp
  exact h p (List.mem_filter.mp hp).1

theorem storeInv_reaped (cfg : Config) (now : Int) (st : Store) (h : storeInv cfg st) :
    storeInv cfg { st with db := (countArchivesLoop now st.ttl st.db).2 } := by
  have hc : (countArchivesLoop now st.ttl st.db).2
      = st.db.filter (fun e => !(isInProgress e.2.status && isStale now st.ttl e.2)) := by
    rw [countArchivesLoop_eq_filter]
  rw [hc]
  exact storeInv_filter cfg st _ h

theorem storeInv_dbSave (cfg : Config) (st : Store) (id : String) (a : Archive)
    (h : storeInv cfg st) (ha : a.files.length ≤ cfg.maxFilesPerArchive) :
    storeInv cfg { st with db := dbSave id a st.db } := by
  intro p hp
  rcases mem_dbSave p id a st.db hp with h1 | h1
  · rw [h1]
    exact ha
  · exact h p h1

/-- Claim C8: `len(files) ≤ maxFilesPerArchive` holds for every stored
task after every operation — the bulk path rejects URL lists longer than
the limit before any download, `addFile` rejects additions to a full
task, and the other operations never grow a file list. -/
theorem files_le_max_invariant :
    ∀ (cfg : Config) (env : Env) (now : Int) (id url : String) (urls : List String)
      (st : Store),
      storeInv cfg st →
      storeInv cfg (createArchive cfg env false now id urls st).2 ∧
      storeInv cfg (createEmptyArchive cfg false now id st).2 ∧
      storeInv cfg (addFile cfg env false now id url st).2 ∧
      storeInv cfg (getArchiveStatus false id st).2 := by
  intro cfg env now id url urls st hinv
  have hreap := storeInv_reaped cfg now st hinv
  refine ⟨?_, ?_, ?_, ?_⟩
  · by_cases hb : cfg.maxArchivesInProcess ≤ (countArchivesLoop now st.ttl st.db).1
    · rw [createArchive_busy cfg env now id urls st hb]
      exact hreap
    · by_cases hl : cfg.maxFilesPerArchive < urls.length
      · rw [createArchive_tooMany cfg env now id urls st hb hl]
        exact hreap
      · by_cases hid0 : id = ""
        · rw [createArchive_saveFail cfg env now id urls st hb hl hid0]
          exact hreap
        · rw [createArchive_run cfg env now id urls st (not_le.mp hb) (not_lt.mp hl) hid0]
          have hlen := processUrls_length cfg env id urls
          have hbulk : (bulkArchive cfg env now id urls).files.length
              ≤ cfg.maxFilesPerArchive := by
            rw [bulkArchive_eq, bulkFinish_files]
            have := not_lt.mp hl
            omega
          exact storeInv_dbSave cfg { st with db := (countArchivesLoop now st.ttl st.db).2 }
            id (bulkArchive cfg env now id urls) hreap hbulk
  · by_cases hb : cfg.maxArchivesInProcess ≤ (countArchivesLoop now st.ttl st.db).1
    · rw [createEmptyArchive_busy cfg now id st hb]
      exact hreap
    · by_cases hid0 : id = ""
      · rw [createEmptyArchive_saveFail cfg now id st hb hid0]
        exact hreap
      · rw [createEmptyArchive_run cfg now id st hb hid0]
        exact storeInv_dbSave cfg { st with db := (countArchivesLoop now st.ttl st.db).2 }
          id _ hreap (Nat.zero_le _)
  · cases hg : getArchive false id st with
    | error e' =>
      rw [addFile_getError cfg env now id url st e' hg]
      exact hinv
    | ok a =>
      by_cases h1 : a.status = .ready
      · rw [addFile_ready cfg env now id url st a hg h1]
        exact hinv
      · by_cases h2 : a.status = .failed
        · rw [addFile_failed cfg env now id url st a hg h1 h2]
          exact hinv
        · by_cases h3 : cfg.maxFilesPerArchive ≤ a.files.length
          · rw [addFile_full cfg env now id url st a hg h1 h2 h3]
            exact hinv
          · cases h4 : isValidURL url with
            | false =>
              rw [addFile_invalidURL cfg env now id url st a hg h1 h2 h3 h4]
              exact hinv
            | true =>
              cases h5 : downloadFile cfg env url with
              | error fe =>
                rw [addFile_downloadFailed cfg env now id url st a fe hg h1 h2 h3 h4 h5]
                exact hinv
              | ok r =>
                cases h6 : env.saveFile id r.2 r.1 with
                | some msg =>
                  rw [addFile_copyFailed cfg env now id url st a r msg hg h1 h2 h3 h4 h5 h6]
                  exact hinv
                | none =>
                  by_cases hida : a.id = ""
                  · rw [addFile_saveFail cfg env now id url st a r hg h1 h2 h3 h4 h5 h6 hida]
                    exact hinv
                  · rw [addFile_success cfg env now id url st a r hg h1 h2 h3 h4 h5 h6 hida]
                    have hfin : (addFileFinish cfg env now id a r.2).files.length
                        ≤ cfg.maxFilesPerArchive := by
                      rw [addFileFinish_files]
                      have h3' := not_le.mp h3
                      simp only [List.length_append, List.length_singleton]
                      omega
                    exact storeInv_dbSave cfg st a.id _ hinv hfin
  · rw [getArchiveStatus_state]
    exact hinv

theorem stOneDemo_inv : storeInv cfgDemo stOneDemo := by
  intro p hp
  have hp' : p ∈ [("t2", buildingTaskDemo)] := hp
  rw [List.mem_singleton] at hp'
  subst hp'
  decide

theorem files_le_max_invariant_witness :
    storeInv cfgDemo stOneDemo ∧
    (storeInv cfgDemo
        (createArchive cfgDemo envDemo false 0 "t9" ["http://h/a.pdf"] stOneDemo).2 ∧
     storeInv cfgDemo (createEmptyArchive cfgDemo false 0 "t9" stOneDemo).2 ∧
     storeInv cfgDemo (addFile cfgDemo envDemo false 0 "t9" "http://h/c.pdf" stOneDemo).2 ∧
     storeInv cfgDemo (getArchiveStatus false "t9" stOneDemo).2) :=
  ⟨stOneDemo_inv,
   files_le_max_invariant cfgDemo envDemo 0 "t9" "http://h/c.pdf" ["http://h/a.pdf"]
     stOneDemo stOneDemo_inv⟩

/-- Claim C9: whenever the reaped in-progress count is at least
`maxArchivesInProcess`, both `CreateEmptyArchive` and `CreateArchive`
fail with `ServerBusy` before creating any state (the store changes only
by the reaping `CountArchivesInProcess` performs); and whenever the
count is below the ceiling — as after an in-progress task reaches a
terminal state — a subsequent creation is admitted: `CreateEmptyArchive`
succeeds and `CreateArchive` cannot fail with `ServerBusy`. -/
theorem admission_gate :
    ∀ (cfg : Config) (env : Env) (now : Int) (id : String) (urls : List String)
      (st : Store),
      (cfg.maxArchivesInProcess ≤ (countArchivesLoop now st.ttl st.db).1 →
        createEmptyArchive cfg false now id st
          = (.error .serverBusy, { st with db := (countArchivesLoop now st.ttl st.db).2 }) ∧
        createArchive cfg env false now id urls st
          = (.error .serverBusy,
             { st with db := (countArchivesLoop now st.ttl st.db).2 })) ∧
      ((countArchivesLoop now st.ttl st.db).1 < cfg.maxArchivesInProcess → id ≠ "" →
        (∃ a st', createEmptyArchive cfg false now id st = (.ok a, st')) ∧
        (createArchive cfg env false now id urls st).1 ≠ .error .serverBusy) := by
  intro cfg env now id urls st
  constructor
  · intro h
    exact ⟨createEmptyArchive_busy cfg now id st h,
           createArchive_busy cfg env now id urls st h⟩
  · intro h hid
    constructor
    · exact ⟨_, _, createEmptyArchive_run cfg now id st (not_le.mpr h) hid⟩
    · by_cases hl : cfg.maxFilesPerArchive < urls.length
      · rw [createArchive_tooMany cfg env now id urls st (not_le.mpr h) hl]
        simp
      · rw [createArchive_run cfg env now id urls st h (not_lt.mp hl) hid]
        simp

def busyTask (n : String) : Archive :=
  { id := n, status := .building, files := [], createdAt := 0, updatedAt := 0,
    errors := [] }

def stBusyDemo : Store :=
  { ttl := 3600, db := [("b1", busyTask "b1"), ("b2", busyTask "b2"), ("b3", busyTask "b3")] }

theorem admission_gate_witness :
    (cfgDemo.maxArchivesInProcess ≤ (countArchivesLoop 0 stBusyDemo.ttl stBusyDemo.db).1 ∧
     createEmptyArchive cfgDemo false 0 "t5" stBusyDemo
       = (.error .serverBusy,
          { stBusyDemo with db := (countArchivesLoop 0 stBusyDemo.ttl stBusyDemo.db).2 }) ∧
     createArchive cfgDemo envDemo false 0 "t5" ["http://h/a.pdf"] stBusyDemo
       = (.error .serverBusy,
          { stBusyDemo with db := (countArchivesLoop 0 stBusyDemo.ttl stBusyDemo.db).2 })) ∧
    ((countArchivesLoop 0 stDemo.ttl stDemo.db).1 < cfgDemo.maxArchivesInProcess ∧
     (∃ a st', createEmptyArchive cfgDemo false 0 "t5" stDemo = (.ok a, st')) ∧
     (createArchive cfgDemo envDemo false 0 "t5" ["http://h/a.pdf"] stDemo).1
       ≠ .error .serverBusy) :=
  ⟨⟨by decide,
    (admission_gate cfgDemo envDemo 0 "t5" ["http://h/a.pdf"] stBusyDemo).1 (by decide)⟩,
   ⟨by decide,
    (admission_gate cfgDemo envDemo 0 "t5" ["http://h/a.pdf"] stDemo).2 (by decide)
      (by decide)⟩⟩
